import Mathlib

/-!
Verification development for the SNC scraper's resume/progress-tracking
subsystem: a shallow embedding of the cache manager, work selector,
snapshot loaders and resume planner, with theorems settling the spec's
claims about them.

Python dictionaries are modelled as association lists with dict update
semantics (replace in place when the key exists, append otherwise);
Python string truthiness is modelled as inequality with the empty string;
current time and disk-write success are passed in as explicit parameters.
-/

namespace SncScraper

/-- `isPrefixList pat l` holds when `pat` is a prefix of `l`. -/
def isPrefixList : List Char → List Char → Bool
  | [], _ => true
  | _ :: _, [] => false
  | p :: ps, c :: cs => p = c && isPrefixList ps cs

/-- `containsAt pat l` holds when `pat` occurs contiguously in `l`. -/
def containsAt (pat : List Char) : List Char → Bool
  | [] => isPrefixList pat []
  | c :: cs => isPrefixList pat (c :: cs) || containsAt pat cs

/-- Python `s.startswith(p)`. -/
def strStartsWith (s p : String) : Bool := isPrefixList p.data s.data

/-- Python `s.endswith(p)`. -/
def strEndsWith (s p : String) : Bool := isPrefixList p.data.reverse s.data.reverse

/-- Python `p in s` substring test. -/
def strContainsSub (s p : String) : Bool := containsAt p.data s.data

/-- Lookup in a Python-dict model: first binding for the key, if any. -/
def dictGet {α : Type} (m : List (String × α)) (k : String) : Option α :=
  match m with
  | [] => none
  | (k1, v) :: rest => if k1 = k then some v else dictGet rest k

/-- Python `k in d` membership test. -/
def dictContains {α : Type} (m : List (String × α)) (k : String) : Bool :=
  (dictGet m k).isSome

/-- Python `d[k] = v`: replace the binding in place if present, else append. -/
def dictInsert {α : Type} (m : List (String × α)) (k : String) (v : α) :
    List (String × α) :=
  match m with
  | [] => [(k, v)]
  | (k1, v1) :: rest =>
    if k1 = k then (k1, v) :: rest else (k1, v1) :: dictInsert rest k v

/-- In-place update of the entry stored under a key (no-op when absent). -/
def dictModify {α : Type} (m : List (String × α)) (k : String) (f : α → α) :
    List (String × α) :=
  match m with
  | [] => []
  | (k1, v1) :: rest =>
    if k1 = k then (k1, f v1) :: rest else (k1, v1) :: dictModify rest k f

/-- One entry of the VC cache file (`vc_cache.json`), as written by
`VCCacheManager.add_vc` in `helpers/vc_cache_manager.py`. -/
structure VCEntry where
  name : String
  url : String
  slug : String
  first_seen_page : Option Int
  scraping_status : String
  first_discovered : String
  last_updated : String
  last_scraped : Option String
  scrape_attempts : Nat
  data_hash : Option String
deriving DecidableEq, Repr

/-- The in-memory cache: a Python dict keyed by slug. -/
abbrev Cache : Type := List (String × VCEntry)

/-- `VCCacheManager.add_vc`: unconditionally writes a fresh pending entry
under the slug and returns the result of `_save_cache` (`saveOk`). -/
def add_vc (c : Cache) (slug name url : String) (first_seen_page : Option Int)
    (now : String) (saveOk : Bool) : Cache × Bool :=
  (dictInsert c slug
    { name := name
      url := url
      slug := slug
      first_seen_page := first_seen_page
      scraping_status := "pending"
      first_discovered := now
      last_updated := now
      last_scraped := none
      scrape_attempts := 0
      data_hash := none }, saveOk)

/-- `VCCacheManager.get_vc_status`: `cache_data.get(slug, {}).get("scraping_status")`. -/
def get_vc_status (c : Cache) (slug : String) : Option String :=
  (dictGet c slug).map (fun e => e.scraping_status)

/-- Python truthiness of the optional `data_hash` argument. -/
def hashTruthy (h : Option String) : Bool :=
  match h with
  | some s => s ≠ ""
  | none => false

/-- `VCCacheManager.mark_vc_completed`: when the slug is present, sets
status `completed`, stamps `last_scraped` and `last_updated`, stores the
hash when truthy, and returns the save result; otherwise returns `false`
leaving the cache unchanged. -/
def mark_vc_completed (c : Cache) (slug : String) (data_hash : Option String)
    (now : String) (saveOk : Bool) : Cache × Bool :=
  if dictContains c slug then
    (dictModify c slug (fun e =>
      { e with
        scraping_status := "completed"
        last_scraped := some now
        last_updated := now
        data_hash := if hashTruthy data_hash then data_hash else e.data_hash }),
     saveOk)
  else
    (c, false)

/-- `VCCacheManager.mark_vc_failed`: when the slug is present, sets status
`failed`, stamps `last_updated`, increments `scrape_attempts`, and returns
the save result; otherwise returns `false` leaving the cache unchanged. -/
def mark_vc_failed (c : Cache) (slug : String) (now : String) (saveOk : Bool) :
    Cache × Bool :=
  if dictContains c slug then
    (dictModify c slug (fun e =>
      { e with
        scraping_status := "failed"
        last_updated := now
        scrape_attempts := e.scrape_attempts + 1 }),
     saveOk)
  else
    (c, false)

/-- `VCCacheManager.is_vc_completed`. -/
def is_vc_completed (c : Cache) (slug : String) : Bool :=
  get_vc_status c slug == some "completed"

/-- Outcome of attempting to read the cache file in `_load_cache`:
the file is absent, parses to a cache, or raises on read/parse. -/
inductive ReadResult where
  | missing
  | ok (c : Cache)
  | err
deriving DecidableEq

/-- `VCCacheManager._load_cache`: absent file and any read error both
yield the empty cache. -/
def load_cache (r : ReadResult) : Cache :=
  match r with
  | .missing => []
  | .ok c => c
  | .err => []

/-- Python `url.split('/')[-1] if '/' in url else url`: the characters
after the last slash (the whole string when there is no slash). -/
def extract_slug (url : String) : String :=
  ⟨url.data.foldl (fun acc c => if c = '/' then [] else acc ++ [c]) []⟩

/-- One record of a page snapshot's item list. Fields hold the Python
values' truthiness carriers: strings (empty = falsy, as for a missing
key) and the investments list. A non-dict JSON element is `nondict`. -/
inductive VCItem where
  | dict (vc_id founded overview exits investment_stages : String)
      (investments : List String)
  | nondict
deriving DecidableEq, Repr

/-- `SearchPageHelper.determine_vc_status`: "scraped" iff some key
overview field is truthy and the investments list is non-empty. -/
def determine_vc_status (vc_data : VCItem) : String :=
  match vc_data with
  | .nondict => "not_scraped"
  | .dict _ founded overview exits investment_stages investments =>
    let has_key_overview :=
      founded ≠ "" || overview ≠ "" || exits ≠ "" || investment_stages ≠ ""
    let has_investments := !investments.isEmpty
    if has_key_overview && has_investments then "scraped" else "not_scraped"

/-- The `vc_id` field read with `vc.get('vc_id', '')`. -/
def item_vc_id (vc : VCItem) : String :=
  match vc with
  | .dict vc_id _ _ _ _ _ => vc_id
  | .nondict => ""

/-- The scraped-id set built inside `filter_unscraped_vcs`: ids (truthy
only) of dict items the heuristic classifies as scraped. -/
def scraped_vc_ids (existing_vcs : List VCItem) : List String :=
  existing_vcs.filterMap (fun vc =>
    match vc with
    | .nondict => none
    | .dict vc_id _ _ _ _ _ =>
      if vc_id ≠ "" ∧ determine_vc_status vc = "scraped" then some vc_id
      else none)

/-- `SearchPageHelper.filter_unscraped_vcs`: with no existing data (or an
empty list, both falsy) every candidate needs scraping; otherwise keep
the candidates whose derived id is not in the scraped-id set. -/
def filter_unscraped_vcs (all_vc_links : List String)
    (existing_vcs : Option (List VCItem)) : List String :=
  match existing_vcs with
  | none => all_vc_links
  | some vcs =>
    if vcs.isEmpty then all_vc_links
    else
      all_vc_links.filter (fun url =>
        !(scraped_vc_ids vcs).contains (extract_slug url))

/-- `SearchPageHelper._filter_links_by_cache`: on any error while
constructing or consulting the cache, return the input list unchanged;
otherwise drop the links whose slug the cache marks completed. -/
def filter_links_by_cache (cacheLoad : Except Unit Cache)
    (vc_links : List String) : List String :=
  match cacheLoad with
  | .error _ => vc_links
  | .ok c => vc_links.filter (fun url => !is_vc_completed c (extract_slug url))

/-- Parse outcome of one page-snapshot file, as discriminated by
`load_existing_page_data`: a dict with a "vcs" key (enhanced format, the
metadata status possibly absent), a bare list (legacy format), some other
JSON value, or a file that raises on `json.load`. -/
inductive PageJson where
  | enhanced (vcs : List VCItem) (status : Option String)
  | legacyList (vcs : List VCItem)
  | other
  | corrupt
deriving DecidableEq, Repr

/-- A directory listing: filenames paired with their parse outcomes,
in `os.listdir` order. `none` models a missing results directory. -/
abbrev PageDir : Type := List (String × PageJson)

/-- The filename filter `filename.startswith(f'page_{page_num}_') and
filename.endswith('.json')`. -/
def pageFileMatches (page_num : Int) (filename : String) : Bool :=
  strStartsWith filename ("page_" ++ toString page_num ++ "_") &&
    strEndsWith filename ".json"

/-- The legacy-format status inferred from the filename:
`"completed" if "completed" in filename else "in_progress"`. -/
def legacyStatus (filename : String) : String :=
  if strContainsSub filename "completed" then "completed" else "in_progress"

/-- The scan loop of `load_existing_page_data` over the listing: the
first matching file that is an enhanced dict or a legacy list decides the
result; `other` values fall through both format branches and the loop
continues; a matching corrupt file raises, caught as `(None, None)`. -/
def load_page_scan (page_num : Int) :
    List (String × PageJson) → Option (List VCItem) × Option String
  | [] => (none, none)
  | (filename, content) :: rest =>
    if pageFileMatches page_num filename then
      match content with
      | .enhanced vcs status => (some vcs, some (status.getD "unknown"))
      | .legacyList vcs => (some vcs, some (legacyStatus filename))
      | .other => load_page_scan page_num rest
      | .corrupt => (none, none)
    else load_page_scan page_num rest

/-- `SearchPageHelper.load_existing_page_data`: `(None, None)` when the
results directory is absent, else the scan over its listing. -/
def load_existing_page_data (page_num : Int) (dir : Option PageDir) :
    Option (List VCItem) × Option String :=
  match dir with
  | none => (none, none)
  | some files => load_page_scan page_num files

/-- The `metadata` object read by `StateManager.load_previous_state`:
`page_number` and `status` via `.get`, either possibly absent. -/
structure PageMeta where
  page_number : Option Int
  status : Option String
deriving DecidableEq, Repr

/-- Parse outcome of one file during the resume scan: JSON with a
`metadata` key, JSON without one, or a `json.JSONDecodeError` (skipped). -/
inductive StateFile where
  | withMeta (m : PageMeta)
  | noMeta
  | corrupt
deriving DecidableEq, Repr

/-- A results-directory listing for the resume scan. -/
abbrev StateDir : Type := List (String × StateFile)

/-- The filename filter of the resume scan:
`filename.startswith('page_') and filename.endswith('.json')`. -/
def stateFileMatches (filename : String) : Bool :=
  strStartsWith filename "page_" && strEndsWith filename ".json"

/-- One step of the resume scan: an `in_progress` metadata overwrites the
in-progress slot with its (possibly absent) page number; a `completed`
metadata appends its page number to the completed list. -/
def resume_scan_step (acc : Option Int × List (Option Int))
    (file : String × StateFile) : Option Int × List (Option Int) :=
  if stateFileMatches file.1 then
    match file.2 with
    | .withMeta m =>
      if m.status = some "in_progress" then (m.page_number, acc.2)
      else if m.status = some "completed" then (acc.1, acc.2 ++ [m.page_number])
      else acc
    | .noMeta => acc
    | .corrupt => acc
  else acc

/-- Python `max(completed_pages) + 1` over a list that may contain
`None`: a comparison or the addition involving `None` raises `TypeError`,
caught by the outer handler which returns page 1. -/
def nextAfterCompleted (completed : List (Option Int)) : Int :=
  match completed.mapM id with
  | some (n :: ns) => (ns.foldl max n) + 1
  | some [] => 1
  | none => 1

/-- `StateManager.load_previous_state`: resume the in-progress page when
one was recorded (last one wins in listing order), else one past the
highest completed page, else page 1; a missing directory means page 1. -/
def load_previous_state (dir : Option StateDir) : Int :=
  match dir with
  | none => 1
  | some files =>
    let acc := files.foldl resume_scan_step (none, [])
    match acc.1 with
    | some p => p
    | none => if acc.2.isEmpty then 1 else nextAfterCompleted acc.2

/-- The default of the `enable_experimental` keyword argument of
`StateManager.load_previous_state_experimental`. -/
def enable_experimental_default : Bool := false

/-- Outcome of `EnhancedResumeDetector.detect_resume_point_experimental`:
a raised exception, no result (`None`), or a resume page. -/
abbrev Detection : Type := Except Unit (Option Int)

/-- `StateManager.load_previous_state_experimental`: with the flag off or
the detector class unavailable, the baseline; when the detection raises
or returns `None`, fall back to the baseline; else the detected page. -/
def load_previous_state_experimental (dir : Option StateDir)
    (enable_experimental : Bool) (detectorAvailable : Bool)
    (detection : Detection) : Int :=
  if !enable_experimental || !detectorAvailable then load_previous_state dir
  else
    match detection with
    | .error _ => load_previous_state dir
    | .ok none => load_previous_state dir
    | .ok (some p) => p

/-- One entry of the service's in-memory `vc_status` map, restricted to
the fields `_update_page_completion` reads. -/
structure VCTrack where
  status : String
  discovered_on_page : Option Int
deriving DecidableEq, Repr

/-- The service's unified tracking map, keyed by vc id. -/
abbrev TrackMap : Type := List (String × VCTrack)

/-- `_get_vc_status`: `vc_status.get(vc_id, {}).get("status", "pending")`. -/
def get_track_status (m : TrackMap) (vc_id : String) : String :=
  match dictGet m vc_id with
  | some t => t.status
  | none => "pending"

/-- The ids discovered on a page, as gathered by `_update_page_completion`. -/
def page_vc_ids (m : TrackMap) (page_num : Int) : List String :=
  (m.filter (fun kv => kv.2.discovered_on_page = some page_num)).map
    (fun kv => kv.1)

/-- Python `set.add` on the completed-pages set. -/
def pagesAdd (s : List Int) (p : Int) : List Int :=
  if s.contains p then s else s ++ [p]

/-- Python `set.discard` on the completed-pages set. -/
def pagesDiscard (s : List Int) (p : Int) : List Int :=
  s.filter (fun q => q ≠ p)

/-- `SncScraperService._update_page_completion`: with no ids discovered
on the page, return unchanged; when every discovered id has status
`completed`, add the page to the completed set; otherwise discard it
when present. -/
def update_page_completion (m : TrackMap) (completed_pages : List Int)
    (page_num : Int) : List Int :=
  let ids := page_vc_ids m page_num
  if ids.isEmpty then completed_pages
  else
    let completed_count :=
      (ids.filter (fun vc_id => get_track_status m vc_id = "completed")).length
    if completed_count = ids.length ∧ ids.length > 0 then
      pagesAdd completed_pages page_num
    else if completed_pages.contains page_num then
      pagesDiscard completed_pages page_num
    else completed_pages

/-- The cache entry `add_vc` writes: a fresh pending record. -/
def freshEntry (slug name url : String) (first_seen_page : Option Int)
    (now : String) : VCEntry :=
  { name := name
    url := url
    slug := slug
    first_seen_page := first_seen_page
    scraping_status := "pending"
    first_discovered := now
    last_updated := now
    last_scraped := none
    scrape_attempts := 0
    data_hash := none }

/-- The spec's classification predicate "at least one key overview field
is non-empty", stated from the claim's words for comparison with
`determine_vc_status`. -/
def itemHasKeyOverview : VCItem → Bool
  | .nondict => false
  | .dict _ founded overview exits investment_stages _ =>
    founded ≠ "" || overview ≠ "" || exits ≠ "" || investment_stages ≠ ""

/-- The spec's classification predicate "the investments list is
non-empty", stated from the claim's words. -/
def itemHasInvestments : VCItem → Bool
  | .nondict => false
  | .dict _ _ _ _ _ investments => !investments.isEmpty

/-- The number of snapshot items the heuristic classifies as scraped
(the claim's `M`). -/
def scrapedCount (vcs : List VCItem) : Nat :=
  (vcs.filter (fun vc => determine_vc_status vc = "scraped")).length

/-- A directory entry the page loader acts on: the name matches the page
pattern and the file is one of the two supported formats, or raises. -/
def pageFileUsable (page_num : Int) (f : String × PageJson) : Bool :=
  pageFileMatches page_num f.1 &&
    (match f.2 with
     | .other => false
     | _ => true)

/-- The value the page loader extracts from a single usable file. -/
def pageFileResult (f : String × PageJson) :
    Option (List VCItem) × Option String :=
  match f.2 with
  | .enhanced vcs status => (some vcs, some (status.getD "unknown"))
  | .legacyList vcs => (some vcs, some (legacyStatus f.1))
  | .corrupt => (none, none)
  | .other => (none, none)

/-- The first-match reading of the loader: the first usable file in
listing order decides the result (no status priority). -/
def firstUsableResult (page_num : Int) (files : List (String × PageJson)) :
    Option (List VCItem) × Option String :=
  match files.find? (pageFileUsable page_num) with
  | none => (none, none)
  | some f => pageFileResult f

/-- A listing entry that the resume scan records as in-progress. -/
def isInProgressEntry (f : String × StateFile) : Bool :=
  stateFileMatches f.1 &&
    (match f.2 with
     | .withMeta m => m.status = some "in_progress"
     | .noMeta => false
     | .corrupt => false)

/-- A listing entry that the resume scan records as completed. -/
def isCompletedEntry (f : String × StateFile) : Bool :=
  stateFileMatches f.1 &&
    (match f.2 with
     | .withMeta m => m.status = some "completed"
     | .noMeta => false
     | .corrupt => false)

/-- The (possibly absent) page numbers of the completed entries of a
listing, in listing order — the claim's set of completed unit
identifiers. -/
def completedNumbersOf (files : StateDir) : List (Option Int) :=
  (files.filter isCompletedEntry).map (fun f =>
    match f.2 with
    | .withMeta m => m.page_number
    | .noMeta => none
    | .corrupt => none)

/-- Fixture: a cache entry for slug `a` scraped three times and completed. -/
def entryCompletedA : VCEntry :=
  { name := "Alpha"
    url := "u/a"
    slug := "a"
    first_seen_page := some 1
    scraping_status := "completed"
    first_discovered := "t0"
    last_updated := "t1"
    last_scraped := some "t1"
    scrape_attempts := 3
    data_hash := some "h" }

/-- Fixture: a pending cache entry for slug `b`. -/
def entryPendingB : VCEntry :=
  { name := "Beta"
    url := "u/b"
    slug := "b"
    first_seen_page := some 2
    scraping_status := "pending"
    first_discovered := "t0"
    last_updated := "t0"
    last_scraped := none
    scrape_attempts := 0
    data_hash := none }

/-- Fixture: a snapshot item with id `a`, a key overview field, and an
investment — the heuristic classifies it as scraped. -/
def itemScrapedA : VCItem := .dict "a" "1999" "" "" "" ["inv1"]

/-- Fixture: a scraped-classified snapshot item with id `b`. -/
def itemScrapedB : VCItem := .dict "b" "1999" "" "" "" ["inv1"]

/-- Fixture: a page-1 listing where an in-progress snapshot precedes a
completed one in `os.listdir` order. -/
def dirInProgressFirst : PageDir :=
  [("page_1_scrape_in_progress.json",
    .enhanced [itemScrapedA] (some "in_progress")),
   ("page_1_scrape_completed.json", .enhanced [] (some "completed"))]

/-- Fixture: a results listing with in-progress pages 5 and 2, page 5
listed first. -/
def dirTwoInProgress : StateDir :=
  [("page_5_scrape.json", .withMeta ⟨some 5, some "in_progress"⟩),
   ("page_2_scrape.json", .withMeta ⟨some 2, some "in_progress"⟩)]

/-- Fixture: pages 1 and 2 both completed. -/
def dirTwoCompleted : StateDir :=
  [("page_1_scrape_completed.json", .withMeta ⟨some 1, some "completed"⟩),
   ("page_2_scrape_completed.json", .withMeta ⟨some 2, some "completed"⟩)]

/-- Fixture: page 1 completed, page 2 in progress. -/
def dirCompletedThenInProgress : StateDir :=
  [("page_1_scrape_completed.json", .withMeta ⟨some 1, some "completed"⟩),
   ("page_2_scrape_in_progress.json", .withMeta ⟨some 2, some "in_progress"⟩)]

/-! ### Helper lemmas about the dict model -/

theorem dictGet_dictInsert_self {α : Type} (m : List (String × α)) (k : String)
    (v : α) : dictGet (dictInsert m k v) k = some v := by
  induction m with
  | nil => simp [dictInsert, dictGet]
  | cons hd tl ih =>
    by_cases h : hd.1 = k
    · simp [dictInsert, dictGet, h]
    · simpa [dictInsert, dictGet, h] using ih

theorem filter_ne_dictInsert {α : Type} (m : List (String × α)) (k : String)
    (v : α) :
    (dictInsert m k v).filter (fun kv => kv.1 ≠ k) =
      m.filter (fun kv => kv.1 ≠ k) := by
  induction m with
  | nil => simp [dictInsert]
  | cons hd tl ih =>
    by_cases h : hd.1 = k
    · simp [dictInsert, h, List.filter]
    · simp only [dictInsert, if_neg h]
      by_cases h2 : (hd.1 ≠ k)
      · simpa [List.filter, h2] using ih
      · exact absurd (not_not.mp h2) h

theorem length_dictInsert {α : Type} (m : List (String × α)) (k : String)
    (v : α) :
    (dictInsert m k v).length =
      if dictContains m k then m.length else m.length + 1 := by
  induction m with
  | nil => simp [dictInsert, dictContains, dictGet]
  | cons hd tl ih =>
    by_cases h : hd.1 = k
    · simp [dictInsert, dictContains, dictGet, h]
    · simp only [dictInsert, if_neg h, dictContains, dictGet, List.length_cons]
      simp only [dictContains] at ih
      by_cases h2 : (dictGet tl k).isSome
      · simp [h, h2, ih]
      · simp [h, h2, ih]

theorem dictGet_dictModify_self {α : Type} (m : List (String × α)) (k : String)
    (f : α → α) (e : α) (h : dictGet m k = some e) :
    dictGet (dictModify m k f) k = some (f e) := by
  induction m with
  | nil => simp [dictGet] at h
  | cons hd tl ih =>
    by_cases hk : hd.1 = k
    · simp [dictGet, hk] at h
      simp [dictModify, dictGet, hk, h]
    · simp [dictGet, hk] at h
      simpa [dictModify, dictGet, hk] using ih h

theorem filter_ne_dictModify {α : Type} (m : List (String × α)) (k : String)
    (f : α → α) :
    (dictModify m k f).filter (fun kv => kv.1 ≠ k) =
      m.filter (fun kv => kv.1 ≠ k) := by
  induction m with
  | nil => simp [dictModify]
  | cons hd tl ih =>
    by_cases h : hd.1 = k
    · simp [dictModify, h, List.filter]
    · simp only [dictModify, if_neg h]
      by_cases h2 : (hd.1 ≠ k)
      · simpa [List.filter, h2] using ih
      · exact absurd (not_not.mp h2) h

theorem length_filter_split {α : Type} (l : List α) (p : α → Bool) :
    (l.filter p).length + (l.filter (fun a => !p a)).length = l.length :=
  (List.length_eq_length_filter_add (l := l) p).symm

theorem filter_length_eq_iff_all {α : Type} (l : List α) (p : α → Bool) :
    (l.filter p).length = l.length ↔ l.all p = true := by
  rw [List.filter_length_eq_length, List.all_eq_true]

theorem mem_pagesAdd_self (s : List Int) (p : Int) : p ∈ pagesAdd s p := by
  unfold pagesAdd
  by_cases h : s.contains p
  · rw [if_pos h]
    exact List.mem_of_elem_eq_true h
  · rw [if_neg h]
    simp

theorem not_mem_pagesDiscard (s : List Int) (p : Int) :
    p ∉ pagesDiscard s p := by
  unfold pagesDiscard
  intro h
  have := (List.mem_filter.mp h).2
  simp at this

theorem mem_pagesDiscard_of_contains (s : List Int) (p : Int) :
    ∀ q, q ∈ pagesDiscard s p → q ∈ s := by
  intro q h
  exact (List.mem_filter.mp h).1

/-- Folding the resume scan over a listing with no in-progress entry
leaves the in-progress slot untouched. -/
theorem resume_foldl_fst_eq (post : StateDir) :
    ∀ acc : Option Int × List (Option Int),
      post.all (fun f => !isInProgressEntry f) = true →
      (post.foldl resume_scan_step acc).1 = acc.1 := by
  induction post with
  | nil => intro acc _; rfl
  | cons f rest ih =>
    intro acc hall
    rw [List.all_cons, Bool.and_eq_true] at hall
    obtain ⟨hf, hrest⟩ := hall
    rw [List.foldl_cons, ih _ hrest]
    unfold resume_scan_step
    by_cases hm : stateFileMatches f.1
    · cases hsnd : f.2 with
      | withMeta m =>
        have hnp : ¬ (m.status = some "in_progress") := by
          simp [isInProgressEntry, hm, hsnd] at hf
          exact hf
        by_cases hc : m.status = some "completed"
        · simp [hm, hnp, hc]
        · simp [hm, hnp, hc]
      | noMeta => simp [hm]
      | corrupt => simp [hm]
    · simp [hm]

/-- Folding the resume scan accumulates exactly the completed entries'
page numbers, in listing order. -/
theorem resume_foldl_snd (files : StateDir) :
    ∀ acc : Option Int × List (Option Int),
      (files.foldl resume_scan_step acc).2 =
        acc.2 ++ completedNumbersOf files := by
  induction files with
  | nil => intro acc; simp [completedNumbersOf]
  | cons f rest ih =>
    intro acc
    rw [List.foldl_cons, ih]
    unfold resume_scan_step completedNumbersOf isCompletedEntry
    by_cases hm : stateFileMatches f.1
    · cases hsnd : f.2 with
      | withMeta m =>
        by_cases hip : m.status = some "in_progress"
        · have hnc : ¬ (m.status = some "completed") := by
            rw [hip]; decide
          simp [hm, hsnd, hip, hnc, completedNumbersOf]
        · by_cases hc : m.status = some "completed"
          · simp [hm, hsnd, hip, hc, completedNumbersOf]
          · simp [hm, hsnd, hip, hc, completedNumbersOf]
      | noMeta => simp [hm, hsnd, completedNumbersOf]
      | corrupt => simp [hm, hsnd, completedNumbersOf]
    · simp [hm, completedNumbersOf]

/-- The `mapM` worker over a list of present values threads the
accumulator and never fails. -/
theorem mapM_loop_map_some (t : List Int) :
    ∀ acc : List Int,
      List.mapM.loop (id : Option Int → Option Int) (t.map some) acc =
        some (acc.reverse ++ t) := by
  induction t with
  | nil => intro acc; simp [List.mapM.loop]
  | cons a rest ih =>
    intro acc
    simp only [List.map_cons, List.mapM.loop, id_eq, Option.bind_eq_bind,
      Option.some_bind, ih (a :: acc), List.reverse_cons]
    simp

/-- Mapping `some` then sequencing with `id` in the `Option` monad
recovers the original list. -/
theorem mapM_id_map_some (l : List Int) :
    (l.map some).mapM (id : Option Int → Option Int) = some l := by
  show List.mapM.loop (id : Option Int → Option Int) (l.map some) [] = some l
  rw [mapM_loop_map_some]
  simp

/-- `nextAfterCompleted` on an all-present non-empty list is one past
the running maximum. -/
theorem nextAfterCompleted_map_some (n0 : Int) (rest : List Int) :
    nextAfterCompleted ((n0 :: rest).map some) = rest.foldl max n0 + 1 := by
  unfold nextAfterCompleted
  rw [mapM_id_map_some]

/-- A left fold of `max` over a list equals any upper bound that occurs
in the seed or the list. -/
theorem foldl_max_eq (l : List Int) :
    ∀ a M : Int, a ≤ M → (∀ k ∈ l, k ≤ M) → (M = a ∨ M ∈ l) →
      l.foldl max a = M := by
  induction l with
  | nil =>
    intro a M ha _ hm
    rcases hm with h | h
    · simpa using h.symm
    · simp at h
  | cons b t ih =>
    intro a M ha hk hm
    rw [List.foldl_cons]
    have hb : b ≤ M := hk b (by simp)
    have ht : ∀ k ∈ t, k ≤ M := fun k hkt => hk k (by simp [hkt])
    have hmaxle : max a b ≤ M := max_le ha hb
    rcases hm with h | h
    · subst h
      exact ih (max M b) M hmaxle ht (Or.inl (max_eq_left hb).symm)
    · rcases List.mem_cons.mp h with h1 | h2
      · subst h1
        exact ih (max a M) M hmaxle ht (Or.inl (max_eq_right ha).symm)
      · exact ih (max a b) M hmaxle ht (Or.inr h2)

/-! ### Claim theorems -/

/-- C1, counterexample: `add_vc` is not idempotent. On a cache already
holding slug `a` with status `completed` and 3 attempts, a second
`add_vc` returns the save result `true` (no failure indicator) and
resets the entry's status to `pending` and its attempt count to 0. -/
theorem C1_add_vc_second_call_cex :
    (add_vc [("a", entryCompletedA)] "a" "Alpha" "u/a" (some 1) "t2" true).2
        = true ∧
    entryCompletedA.scraping_status = "completed" ∧
    entryCompletedA.scrape_attempts = 3 ∧
    get_vc_status (add_vc [("a", entryCompletedA)] "a" "Alpha" "u/a" (some 1)
        "t2" true).1 "a" = some "pending" ∧
    (dictGet (add_vc [("a", entryCompletedA)] "a" "Alpha" "u/a" (some 1)
        "t2" true).1 "a").map (fun e => e.scrape_attempts) = some 0 := by
  refine ⟨rfl, rfl, rfl, rfl, rfl⟩

/-- C1, amended: `add_vc` unconditionally overwrites. For every cache and
identifier it stores a fresh pending entry under the slug (resetting the
fields of any existing entry), returns the save result rather than a
failure indicator, leaves every other entry unchanged, and leaves the
cache size unchanged when the identifier was already present. -/
theorem C1_add_vc_overwrites (c : Cache) (slug name url : String)
    (fsp : Option Int) (now : String) (saveOk : Bool) :
    (add_vc c slug name url fsp now saveOk).2 = saveOk ∧
    dictGet (add_vc c slug name url fsp now saveOk).1 slug =
      some (freshEntry slug name url fsp now) ∧
    (add_vc c slug name url fsp now saveOk).1.filter
        (fun kv => kv.1 ≠ slug) = c.filter (fun kv => kv.1 ≠ slug) ∧
    (add_vc c slug name url fsp now saveOk).1.length =
      (if dictContains c slug then c.length else c.length + 1) := by
  refine ⟨rfl, ?_, ?_, ?_⟩
  · exact dictGet_dictInsert_self c slug _
  · exact filter_ne_dictInsert c slug _
  · exact length_dictInsert c slug _

/-- C2, counterexample: a unit whose single discovered item has the
terminal status `inactive` is not marked completed by
`_update_page_completion` — only the status string `completed` counts. -/
theorem C2_inactive_not_terminal_cex :
    page_vc_ids [("a", ⟨"inactive", some 1⟩)] 1 = ["a"] ∧
    get_track_status [("a", ⟨"inactive", some 1⟩)] "a" = "inactive" ∧
    update_page_completion [("a", ⟨"inactive", some 1⟩)] [] 1 = [] ∧
    (1 : Int) ∉ update_page_completion [("a", ⟨"inactive", some 1⟩)] [] 1 := by
  refine ⟨rfl, rfl, rfl, by decide⟩

/-- C2, amended: after `_update_page_completion`, the page is in the
completed set iff it has at least one discovered item and every such
item's status is exactly `completed`, or it had no discovered items and
was already in the set (the empty case returns early, so a previously
completed page with no tracked items is left in the set). -/
theorem C2_update_page_completion_characterization (m : TrackMap)
    (cp : List Int) (p : Int) :
    p ∈ update_page_completion m cp p ↔
      (page_vc_ids m p ≠ [] ∧
        (page_vc_ids m p).all
          (fun vc_id => get_track_status m vc_id = "completed") = true) ∨
      (page_vc_ids m p = [] ∧ p ∈ cp) := by
  unfold update_page_completion
  by_cases hempty : (page_vc_ids m p).isEmpty
  · have he : page_vc_ids m p = [] := by
      simpa [List.isEmpty_iff] using hempty
    simp [hempty, he]
  · have hne : page_vc_ids m p ≠ [] := by
      simpa [List.isEmpty_iff] using hempty
    simp only [hempty, Bool.false_eq_true, if_false]
    by_cases hall : (page_vc_ids m p).all
        (fun vc_id => get_track_status m vc_id = "completed") = true
    · have hlen : ((page_vc_ids m p).filter
          (fun vc_id => get_track_status m vc_id = "completed")).length =
            (page_vc_ids m p).length :=
        (filter_length_eq_iff_all _ _).mpr hall
      have hpos : (page_vc_ids m p).length > 0 :=
        List.length_pos.mpr hne
      rw [if_pos ⟨hlen, hpos⟩]
      simp [mem_pagesAdd_self, hne, hall]
    · have hlen : ¬ (((page_vc_ids m p).filter
          (fun vc_id => get_track_status m vc_id = "completed")).length =
            (page_vc_ids m p).length ∧ (page_vc_ids m p).length > 0) := by
        intro hc
        exact hall ((filter_length_eq_iff_all _ _).mp hc.1)
      rw [if_neg hlen]
      by_cases hin : cp.contains p
      · rw [if_pos hin]
        simp [hne, hall, not_mem_pagesDiscard]
      · rw [if_neg hin]
        have hpin : p ∉ cp := by
          intro hc
          exact hin (List.elem_eq_true_of_mem hc)
        simp [hne, hall, hpin]

/-- C5: `determine_vc_status` classifies an item as scraped iff at least
one key overview field is non-empty and the investments list is
non-empty; a non-dict input and items satisfying only one conjunct are
classified not scraped. -/
theorem C5_determine_vc_status_correct (vc : VCItem) :
    (determine_vc_status vc = "scraped" ↔
      itemHasKeyOverview vc = true ∧ itemHasInvestments vc = true) ∧
    determine_vc_status VCItem.nondict = "not_scraped" ∧
    determine_vc_status (VCItem.dict "a" "1999" "" "" "" []) =
      "not_scraped" ∧
    determine_vc_status (VCItem.dict "a" "" "" "" "" ["x"]) =
      "not_scraped" := by
  refine ⟨?_, rfl, rfl, rfl⟩
  cases vc with
  | nondict => simp [determine_vc_status, itemHasKeyOverview]
  | dict vc_id founded overview exits stages investments =>
    simp only [determine_vc_status, itemHasKeyOverview, itemHasInvestments]
    by_cases h : ((founded ≠ "" || overview ≠ "" || exits ≠ ""
        || stages ≠ "") && !investments.isEmpty) = true
    · rw [if_pos h]
      rw [Bool.and_eq_true] at h
      exact ⟨fun _ => ⟨h.1, h.2⟩, fun _ => rfl⟩
    · rw [if_neg h]
      rw [Bool.and_eq_true] at h
      constructor
      · intro hc
        exact absurd hc (by decide)
      · intro hc
        exact absurd ⟨hc.1, hc.2⟩ h

/-- C7: when the cache file is missing or unreadable the cache loads as
empty and `is_vc_completed` returns `false` for every identifier, and a
failing cache-filter pass returns its input candidate list unchanged. -/
theorem C7_cache_read_failure_safe (slug : String) (links : List String) :
    load_cache ReadResult.missing = [] ∧
    load_cache ReadResult.err = [] ∧
    is_vc_completed (load_cache ReadResult.missing) slug = false ∧
    is_vc_completed (load_cache ReadResult.err) slug = false ∧
    filter_links_by_cache (Except.error ()) links = links :=
  ⟨rfl, rfl, rfl, rfl, rfl⟩

/-- C9: the experimental resume flag defaults to disabled, in which case
(or when the detector class is unavailable) the experimental entry point
returns exactly the baseline result; and when the detection raises or
yields no result it also falls back to the baseline result. -/
theorem C9_experimental_default_and_fallback (dir : Option StateDir)
    (avail eflag aflag : Bool) (det : Detection) :
    enable_experimental_default = false ∧
    load_previous_state_experimental dir enable_experimental_default avail
      det = load_previous_state dir ∧
    load_previous_state_experimental dir eflag aflag (Except.error ()) =
      load_previous_state dir ∧
    load_previous_state_experimental dir eflag aflag (Except.ok none) =
      load_previous_state dir := by
  refine ⟨rfl, rfl, ?_, ?_⟩
  · cases eflag <;> cases aflag <;> rfl
  · cases eflag <;> cases aflag <;> rfl

/-- C8: `mark_vc_completed` and `mark_vc_failed` are no-ops returning the
failure indicator `false` when the identifier is unknown, leaving the
cache unchanged; when the identifier is present, `mark_vc_failed` sets
the status to `failed`, stamps `last_updated`, and increments the attempt
count by exactly one. -/
theorem C8_mark_unknown_noop_and_failed_update (c : Cache) (slug : String)
    (dh : Option String) (now : String) (saveOk : Bool) (e : VCEntry) :
    (dictContains c slug = false →
      mark_vc_completed c slug dh now saveOk = (c, false) ∧
      mark_vc_failed c slug now saveOk = (c, false)) ∧
    (dictGet c slug = some e →
      (mark_vc_failed c slug now saveOk).2 = saveOk ∧
      dictGet (mark_vc_failed c slug now saveOk).1 slug =
        some { e with
                scraping_status := "failed"
                last_updated := now
                scrape_attempts := e.scrape_attempts + 1 }) := by
  constructor
  · intro habs
    constructor
    · unfold mark_vc_completed
      rw [if_neg (by simp [habs])]
    · unfold mark_vc_failed
      rw [if_neg (by simp [habs])]
  · intro hget
    have hcon : dictContains c slug = true := by
      simp [dictContains, hget]
    constructor
    · unfold mark_vc_failed
      rw [if_pos hcon]
    · unfold mark_vc_failed
      rw [if_pos hcon]
      exact dictGet_dictModify_self c slug _ e hget

/-- C8, witness: both marking operations at an unknown slug on the empty
cache, and `mark_vc_failed` at a present slug on a one-entry cache. -/
theorem C8_mark_unknown_noop_and_failed_update_witness :
    mark_vc_completed [] "a" none "t1" true = ([], false) ∧
    mark_vc_failed [] "a" "t1" true = ([], false) ∧
    dictGet (mark_vc_failed [("b", entryPendingB)] "b" "t2" true).1 "b" =
      some { entryPendingB with
              scraping_status := "failed"
              last_updated := "t2"
              scrape_attempts := entryPendingB.scrape_attempts + 1 } :=
  ⟨((C8_mark_unknown_noop_and_failed_update [] "a" none "t1" true
      entryPendingB).1 (by decide)).1,
   ((C8_mark_unknown_noop_and_failed_update [] "a" none "t1" true
      entryPendingB).1 (by decide)).2,
   ((C8_mark_unknown_noop_and_failed_update [("b", entryPendingB)] "b" none
      "t2" true entryPendingB).2 (by decide)).2⟩

/-- C10: for a present identifier, `mark_vc_completed` changes only the
entry's `scraping_status`, `last_scraped`, `last_updated` and (when the
hash argument is truthy) `data_hash`, and `mark_vc_failed` changes only
`scraping_status`, `last_updated` and `scrape_attempts`; all other fields
of the entry and every other cache entry are unchanged. -/
theorem C10_mark_frame (c : Cache) (slug : String) (dh : Option String)
    (now : String) (saveOk : Bool) (e : VCEntry)
    (hget : dictGet c slug = some e) :
    dictGet (mark_vc_completed c slug dh now saveOk).1 slug =
      some { e with
              scraping_status := "completed"
              last_scraped := some now
              last_updated := now
              data_hash := if hashTruthy dh then dh else e.data_hash } ∧
    (mark_vc_completed c slug dh now saveOk).1.filter
        (fun kv => kv.1 ≠ slug) = c.filter (fun kv => kv.1 ≠ slug) ∧
    dictGet (mark_vc_failed c slug now saveOk).1 slug =
      some { e with
              scraping_status := "failed"
              last_updated := now
              scrape_attempts := e.scrape_attempts + 1 } ∧
    (mark_vc_failed c slug now saveOk).1.filter
        (fun kv => kv.1 ≠ slug) = c.filter (fun kv => kv.1 ≠ slug) := by
  have hcon : dictContains c slug = true := by
    simp [dictContains, hget]
  refine ⟨?_, ?_, ?_, ?_⟩
  · unfold mark_vc_completed
    rw [if_pos hcon]
    exact dictGet_dictModify_self c slug _ e hget
  · unfold mark_vc_completed
    rw [if_pos hcon]
    exact filter_ne_dictModify c slug _
  · unfold mark_vc_failed
    rw [if_pos hcon]
    exact dictGet_dictModify_self c slug _ e hget
  · unfold mark_vc_failed
    rw [if_pos hcon]
    exact filter_ne_dictModify c slug _

/-- C10, witness: the frame property at a two-entry cache, marking slug
`b` completed with a truthy hash and failed, leaving slug `a` intact. -/
theorem C10_mark_frame_witness :
    dictGet (mark_vc_completed [("a", entryCompletedA), ("b", entryPendingB)]
        "b" (some "h9") "t3" true).1 "b" =
      some { entryPendingB with
              scraping_status := "completed"
              last_scraped := some "t3"
              last_updated := "t3"
              data_hash := if hashTruthy (some "h9") then some "h9"
                           else entryPendingB.data_hash } ∧
    (mark_vc_completed [("a", entryCompletedA), ("b", entryPendingB)] "b"
        (some "h9") "t3" true).1.filter (fun kv => kv.1 ≠ "b") =
      ([("a", entryCompletedA), ("b", entryPendingB)] : Cache).filter
        (fun kv => kv.1 ≠ "b") := by
  have h := C10_mark_frame [("a", entryCompletedA), ("b", entryPendingB)]
    "b" (some "h9") "t3" true entryPendingB (by decide)
  exact ⟨h.1, h.2.1⟩

/-- C6, counterexample: the "exactly N−M" count fails when a scraped
snapshot item's identifier matches no candidate. With pool `["x/a"]`
(N = 1) and one scraped item with id `b` (M = 1), the filter returns the
whole pool (length 1 ≠ N−M = 0). -/
theorem C6_count_cex :
    determine_vc_status itemScrapedB = "scraped" ∧
    scrapedCount [itemScrapedB] = 1 ∧
    filter_unscraped_vcs ["x/a"] (some [itemScrapedB]) = ["x/a"] ∧
    (filter_unscraped_vcs ["x/a"] (some [itemScrapedB])).length ≠
      (["x/a"] : List String).length - scrapedCount [itemScrapedB] := by
  refine ⟨rfl, rfl, rfl, by decide⟩

/-- C6, amended: with no snapshot (or an empty one) every candidate is
returned; otherwise the result is a sublist of the pool none of whose
members has a scraped derived identifier, it has no duplicates when the
pool has none, and its length is N minus the number of pool candidates
whose derived identifier is in the scraped set (equal to N−M exactly when
the M scraped items correspond one-to-one to pool candidates). -/
theorem C6_filter_unscraped_amended (links : List String)
    (vcs : List VCItem) :
    filter_unscraped_vcs links none = links ∧
    filter_unscraped_vcs links (some []) = links ∧
    (vcs.isEmpty = false →
      List.Sublist (filter_unscraped_vcs links (some vcs)) links ∧
      (filter_unscraped_vcs links (some vcs)).all
        (fun url => !(scraped_vc_ids vcs).contains (extract_slug url)) =
          true ∧
      (filter_unscraped_vcs links (some vcs)).length =
        links.length - (links.filter
          (fun url => (scraped_vc_ids vcs).contains (extract_slug url))).length) ∧
    (vcs.isEmpty = false → links.Nodup →
      (filter_unscraped_vcs links (some vcs)).Nodup) := by
  refine ⟨rfl, rfl, ?_, ?_⟩
  · intro hne
    simp only [filter_unscraped_vcs, hne, Bool.false_eq_true, if_false]
    refine ⟨List.filter_sublist links, ?_, ?_⟩
    · rw [List.all_eq_true]
      intro u hu
      exact (List.mem_filter.mp hu).2
    · have hsplit := length_filter_split links
        (fun url => (scraped_vc_ids vcs).contains (extract_slug url))
      omega
  · intro hne hnd
    simp only [filter_unscraped_vcs, hne, Bool.false_eq_true, if_false]
    exact hnd.filter _

/-- C6, witness: pool `["x/a", "y/b"]` against a snapshot whose single
scraped item has id `b`: the result keeps only `x/a` and the length
equation and duplicate-freeness hold. -/
theorem C6_filter_unscraped_amended_witness :
    (filter_unscraped_vcs ["x/a", "y/b"] (some [itemScrapedB])).length =
      (["x/a", "y/b"] : List String).length -
        ((["x/a", "y/b"] : List String).filter
          (fun url =>
            (scraped_vc_ids [itemScrapedB]).contains
              (extract_slug url))).length ∧
    (filter_unscraped_vcs ["x/a", "y/b"] (some [itemScrapedB])).Nodup :=
  ⟨((C6_filter_unscraped_amended ["x/a", "y/b"] [itemScrapedB]).2.2.1
      (by decide)).2.2,
   (C6_filter_unscraped_amended ["x/a", "y/b"] [itemScrapedB]).2.2.2
      (by decide) (by decide)⟩

/-- C3, counterexample: no status priority. In a listing where an
in-progress snapshot for page 1 precedes a completed one, the loader
returns the in-progress data, although a completed snapshot coexists. -/
theorem C3_no_priority_cex :
    ("page_1_scrape_completed.json",
      PageJson.enhanced [] (some "completed")) ∈ dirInProgressFirst ∧
    pageFileMatches 1 "page_1_scrape_completed.json" = true ∧
    load_existing_page_data 1 (some dirInProgressFirst) =
      (some [itemScrapedA], some "in_progress") := by
  refine ⟨by decide, by decide, rfl⟩

/-- C3, amended: the loader returns the result of the first file in
directory-listing order that matches the page pattern and is an enhanced
dict or a legacy bare list (or raises), with no priority between
statuses; the structured format takes its status from the metadata
(default `unknown`) and the legacy format infers it from whether the
filename contains `completed`; a matching corrupt file or no match at
all yields the absent result, as does a missing directory. -/
theorem C3_load_first_match (page_num : Int) (files : PageDir) :
    load_existing_page_data page_num none = (none, none) ∧
    load_existing_page_data page_num (some files) =
      firstUsableResult page_num files := by
  refine ⟨rfl, ?_⟩
  show load_page_scan page_num files = firstUsableResult page_num files
  induction files with
  | nil => rfl
  | cons f rest ih =>
    obtain ⟨fn, content⟩ := f
    by_cases hm : pageFileMatches page_num fn
    · cases content with
      | enhanced vcs status =>
        simp [load_page_scan, firstUsableResult, pageFileUsable,
          pageFileResult, List.find?, hm]
      | legacyList vcs =>
        simp [load_page_scan, firstUsableResult, pageFileUsable,
          pageFileResult, List.find?, hm]
      | other =>
        simpa [load_page_scan, firstUsableResult, pageFileUsable,
          List.find?, hm] using ih
      | corrupt =>
        simp [load_page_scan, firstUsableResult, pageFileUsable,
          pageFileResult, List.find?, hm]
    · cases content with
      | enhanced vcs status =>
        simpa [load_page_scan, firstUsableResult, pageFileUsable,
          List.find?, hm] using ih
      | legacyList vcs =>
        simpa [load_page_scan, firstUsableResult, pageFileUsable,
          List.find?, hm] using ih
      | other =>
        simpa [load_page_scan, firstUsableResult, pageFileUsable,
          List.find?, hm] using ih
      | corrupt =>
        simpa [load_page_scan, firstUsableResult, pageFileUsable,
          List.find?, hm] using ih

/-- C4, counterexample: with in-progress pages 5 and 2 and page 5 listed
first, the planner returns 2 — the last in-progress page in listing
order — not the highest identifier 5. -/
theorem C4_not_highest_in_progress_cex :
    ("page_5_scrape.json",
      StateFile.withMeta ⟨some 5, some "in_progress"⟩) ∈ dirTwoInProgress ∧
    isInProgressEntry ("page_5_scrape.json",
      StateFile.withMeta ⟨some 5, some "in_progress"⟩) = true ∧
    load_previous_state (some dirTwoInProgress) = 2 ∧
    load_previous_state (some dirTwoInProgress) ≠ 5 := by
  refine ⟨by decide, by decide, by decide, by decide⟩

/-- C4, amended: when in-progress units exist the planner resumes the
one whose snapshot file is scanned last in directory-listing order (the
highest identifier only when the listing happens to ascend); otherwise,
when completed units exist and all carry a page number, one past the
highest completed unit identifier; otherwise unit 1 (also for a missing
directory). The concrete scenarios hold: {1 completed, 2 completed}
gives 3, {1 completed, 2 in_progress} gives 2, and no snapshots give 1. -/
theorem C4_resume_planner_amended (pre post files : StateDir) (fn : String)
    (n M : Int) (ns : List Int)
    (h1 : stateFileMatches fn = true)
    (h2 : post.all (fun f => !isInProgressEntry f) = true)
    (h3 : files.all (fun f => !isInProgressEntry f) = true)
    (h4 : completedNumbersOf files = ns.map some) :
    load_previous_state (some (pre ++
      (fn, StateFile.withMeta ⟨some n, some "in_progress"⟩) :: post)) = n ∧
    (M ∈ ns → (∀ k ∈ ns, k ≤ M) →
      load_previous_state (some files) = M + 1) ∧
    (ns = [] → load_previous_state (some files) = 1) ∧
    load_previous_state (some dirTwoCompleted) = 3 ∧
    load_previous_state (some dirCompletedThenInProgress) = 2 ∧
    load_previous_state none = 1 := by
  have hfst := resume_foldl_fst_eq files (none, []) h3
  have hsnd := resume_foldl_snd files (none, [])
  rw [List.nil_append] at hsnd
  refine ⟨?_, ?_, ?_, by decide, by decide, rfl⟩
  · show (match ((pre ++
        (fn, StateFile.withMeta ⟨some n, some "in_progress"⟩) :: post).foldl
          resume_scan_step (none, [])).1 with
      | some p => p
      | none =>
        if ((pre ++ (fn, StateFile.withMeta ⟨some n, some "in_progress"⟩)
              :: post).foldl resume_scan_step (none, [])).2.isEmpty then 1
        else nextAfterCompleted ((pre ++
          (fn, StateFile.withMeta ⟨some n, some "in_progress"⟩) :: post).foldl
            resume_scan_step (none, [])).2) = n
    rw [List.foldl_append, List.foldl_cons]
    have hmid : resume_scan_step (pre.foldl resume_scan_step (none, []))
        (fn, StateFile.withMeta ⟨some n, some "in_progress"⟩) =
        (some n, (pre.foldl resume_scan_step (none, [])).2) := by
      unfold resume_scan_step
      simp [h1]
    rw [hmid, resume_foldl_fst_eq post _ h2]
  · intro hmem hub
    obtain ⟨n0, rest, rfl⟩ : ∃ n0 rest, ns = n0 :: rest := by
      cases ns with
      | nil => simp at hmem
      | cons a t => exact ⟨a, t, rfl⟩
    show (match (files.foldl resume_scan_step (none, [])).1 with
      | some p => p
      | none =>
        if (files.foldl resume_scan_step (none, [])).2.isEmpty then 1
        else nextAfterCompleted
          (files.foldl resume_scan_step (none, [])).2) = M + 1
    rw [hfst]
    rw [hsnd, h4]
    rw [if_neg (by simp)]
    rw [nextAfterCompleted_map_some]
    have hmax : rest.foldl max n0 = M :=
      foldl_max_eq rest n0 M (hub n0 (by simp))
        (fun k hk => hub k (by simp [hk]))
        (by
          rcases List.mem_cons.mp hmem with h | h
          · exact Or.inl h
          · exact Or.inr h)
    rw [hmax]
  · intro hns
    subst hns
    show (match (files.foldl resume_scan_step (none, [])).1 with
      | some p => p
      | none =>
        if (files.foldl resume_scan_step (none, [])).2.isEmpty then 1
        else nextAfterCompleted
          (files.foldl resume_scan_step (none, [])).2) = (1 : Int)
    rw [hfst]
    rw [hsnd, h4]
    rfl

/-- C4, witness: a single in-progress snapshot for page 7 resumes at 7;
the listing with pages 1 and 2 completed (completed numbers [1, 2],
maximum 2) resumes at 3; a listing with no in-progress and no completed
entries resumes at 1. -/
theorem C4_resume_planner_amended_witness :
    load_previous_state (some [("page_7_scrape_in_progress.json",
      StateFile.withMeta ⟨some 7, some "in_progress"⟩)]) = 7 ∧
    load_previous_state (some dirTwoCompleted) = 3 ∧
    load_previous_state (some [("notes.txt", StateFile.noMeta)]) = 1 := by
  have hA := C4_resume_planner_amended [] [] dirTwoCompleted
    "page_7_scrape_in_progress.json" 7 2 [1, 2]
    (by decide) (by decide) (by decide) (by decide)
  have hB := C4_resume_planner_amended [] [] [("notes.txt", StateFile.noMeta)]
    "page_7_scrape_in_progress.json" 7 0 []
    (by decide) (by decide) (by decide) (by decide)
  refine ⟨hA.1, ?_, hB.2.2.1 rfl⟩
  have h2 := hA.2.1 (by decide) (by decide)
  omega

end SncScraper
